import Mathlib

set_option autoImplicit false
set_option maxRecDepth 8000
set_option maxHeartbeats 1000000

/-!
Shallow embedding of `scripts/analyze_risk.py`: the vendor risk register
pipeline (loader, flag engine, report writer, chart renderer), together with
a small file-system model used to reason about the artifacts a run writes.
Dates are modelled at day resolution as integers (a fixed civil-date to
day-number map), numeric cells as rationals, and the run's "today" is an
explicit parameter of the flag engine.
-/

universe u

/-- Cell values of the tabular dataset: missing data (`na`), text, numbers
(rationals stand for the numeric cells), day-resolution dates, and booleans. -/
inductive Value where
  | na : Value
  | str : String → Value
  | num : ℚ → Value
  | date : Int → Value
  | bool : Bool → Value
deriving DecidableEq

/-- Python `str.strip()`: drop surrounding whitespace. -/
def strip (s : String) : String :=
  String.mk (((s.toList.dropWhile Char.isWhitespace).reverse.dropWhile Char.isWhitespace).reverse)

/-- Python `str.lower()` restricted to the ASCII letters that occur here. -/
def lower (s : String) : String :=
  String.mk (s.toList.map Char.toLower)

/-- Split a character list at every occurrence of the separator `c`. -/
def splitOnChar (c : Char) (l : List Char) : List (List Char) :=
  l.foldr (fun ch acc =>
    match acc with
    | [] => [[ch]]
    | a :: rest => if ch = c then [] :: a :: rest else (ch :: a) :: rest) [[]]

def allDigits (l : List Char) : Bool := l.all (fun c => c.isDigit)

def digitsToNat (l : List Char) : Nat := l.foldl (fun a c => a * 10 + (c.toNat - 48)) 0

/-- Day number of a civil date (valid for years from 1 on): the standard
era/year-of-era computation counting days from 0000-03-01.  Only differences
and the order of day numbers matter to the pipeline. -/
def daysFromCivilN (y m d : Nat) : Nat :=
  let y' := if m ≤ 2 then y - 1 else y
  let era := y' / 400
  let yoe := y' % 400
  let mp := (m + 9) % 12
  let doy := (153 * mp + 2) / 5 + (d - 1)
  let doe := yoe * 365 + yoe / 4 - yoe / 100 + doy
  era * 146097 + doe

def daysFromCivil (y m d : Nat) : Int := Int.ofNat (daysFromCivilN y m d)

/-- Date parsing used by the `pd.to_datetime(errors=coerce)` model: an ISO
`YYYY-MM-DD` string parses to its day number, anything else to null. -/
def parseDateStr (s : String) : Option Int :=
  match splitOnChar '-' (strip s).toList with
  | [ys, ms, ds] =>
    if ys ≠ [] ∧ ms ≠ [] ∧ ds ≠ [] ∧ allDigits ys = true ∧ allDigits ms = true ∧ allDigits ds = true then
      let m := digitsToNat ms
      let d := digitsToNat ds
      if 1 ≤ m ∧ m ≤ 12 ∧ 1 ≤ d ∧ d ≤ 31 then some (daysFromCivil (digitsToNat ys) m d)
      else none
    else none
  | _ => none

/-- Decimal parsing used by the `pd.to_numeric(errors=coerce)` model: an
optionally signed decimal literal parses to a rational, anything else to null. -/
def parseNumStr (s : String) : Option ℚ :=
  let l := (strip s).toList
  let sign : Bool × List Char :=
    match l with
    | '-' :: t => (true, t)
    | '+' :: t => (false, t)
    | _ => (false, l)
  match splitOnChar '.' sign.2 with
  | [ip] =>
    if ip ≠ [] ∧ allDigits ip = true then
      some (if sign.1 then -(digitsToNat ip : ℚ) else (digitsToNat ip : ℚ))
    else none
  | [ip, fp] =>
    if (ip ≠ [] ∨ fp ≠ []) ∧ allDigits ip = true ∧ allDigits fp = true then
      let v : ℚ := (digitsToNat ip : ℚ) + (digitsToNat fp : ℚ) / ((10 : ℚ) ^ fp.length)
      some (if sign.1 then -v else v)
    else none
  | _ => none

/-- `pd.to_datetime(value, errors=coerce)` on one cell: dates pass through,
strings are parsed, everything else (including missing data) becomes null. -/
def coerceDate : Value → Option Int
  | Value.date d => some d
  | Value.str s => parseDateStr s
  | _ => none

/-- `pd.to_numeric(value, errors=coerce)` on one cell: numbers pass through,
booleans become 0/1, strings are parsed, everything else becomes null. -/
def coerceNum : Value → Option ℚ
  | Value.num q => some q
  | Value.bool b => some (if b then 1 else 0)
  | Value.str s => parseNumStr s
  | _ => none

def valOfDate : Option Int → Value
  | some d => Value.date d
  | none => Value.na

def valOfNum : Option ℚ → Value
  | some q => Value.num q
  | none => Value.na

theorem coerceDate_valOfDate (o : Option Int) : coerceDate (valOfDate o) = o := by
  cases o <;> rfl

theorem coerceNum_valOfNum (o : Option ℚ) : coerceNum (valOfNum o) = o := by
  cases o <;> rfl

/-- A dataframe: named columns and positional rows. -/
structure DF where
  cols : List String
  rows : List (List Value)
deriving DecidableEq

/-- Index of the first occurrence of a column name (the list's length when
the name is absent). -/
def idxOf (n : String) : List String → Nat
  | [] => 0
  | c :: cs => if c = n then 0 else idxOf n cs + 1

/-- The cell of row `r` in the column named `n` (null when absent). -/
def getValC (cols : List String) (r : List Value) (n : String) : Value :=
  r.getD (idxOf n cols) Value.na

def rowAt (df : DF) (i : Nat) : List Value := df.rows.getD i []

/-- The dataframe is rectangular: every row has one cell per column. -/
def Rect (df : DF) : Prop := ∀ r ∈ df.rows, r.length = df.cols.length

instance (df : DF) : Decidable (Rect df) := by
  unfold Rect; infer_instance

/-- Column assignment `df[n] = f(row)`: overwrite the column in place when it
exists, append it otherwise.  `f` receives the current column names and the
current row, mirroring an elementwise pandas assignment. -/
def assignCol (df : DF) (n : String) (f : List String → List Value → Value) : DF :=
  if n ∈ df.cols then
    ⟨df.cols, df.rows.map (fun r => r.set (idxOf n df.cols) (f df.cols r))⟩
  else
    ⟨df.cols ++ [n], df.rows.map (fun r => r ++ [f df.cols r])⟩

section ListLemmas

variable {α : Type u} {β : Type u}

theorem getD_default_of_le (l : List α) (i : Nat) (d : α) (h : l.length ≤ i) :
    l.getD i d = d := by
  induction l generalizing i with
  | nil => simp [List.getD]
  | cons a t ih =>
    cases i with
    | zero => simp at h
    | succ n =>
      simp only [List.getD_cons_succ]
      exact ih n (by simpa using h)

theorem getD_map (g : α → β) (l : List α) (i : Nat) (d : α) (d' : β) (h : i < l.length) :
    (l.map g).getD i d' = g (l.getD i d) := by
  induction l generalizing i with
  | nil => simp at h
  | cons a t ih =>
    cases i with
    | zero => simp
    | succ n =>
      simp only [List.map_cons, List.getD_cons_succ]
      exact ih n (by simpa using h)

theorem getD_set_self (l : List α) (i : Nat) (v d : α) (h : i < l.length) :
    (l.set i v).getD i d = v := by
  induction l generalizing i with
  | nil => simp at h
  | cons a t ih =>
    cases i with
    | zero => simp
    | succ n =>
      simp only [List.set_cons_succ, List.getD_cons_succ]
      exact ih n (by simpa using h)

theorem getD_set_ne (l : List α) (i j : Nat) (v d : α) (h : i ≠ j) :
    (l.set i v).getD j d = l.getD j d := by
  induction l generalizing i j with
  | nil => simp [List.getD]
  | cons a t ih =>
    cases i with
    | zero =>
      cases j with
      | zero => exact absurd rfl h
      | succ m => simp
    | succ n =>
      cases j with
      | zero => simp
      | succ m =>
        simp only [List.set_cons_succ, List.getD_cons_succ]
        exact ih n m (fun he => h (by rw [he]))

theorem getD_append_left (l l' : List α) (i : Nat) (d : α) (h : i < l.length) :
    (l ++ l').getD i d = l.getD i d := by
  induction l generalizing i with
  | nil => simp at h
  | cons a t ih =>
    cases i with
    | zero => simp
    | succ n =>
      simp only [List.cons_append, List.getD_cons_succ]
      exact ih n (by simpa using h)

theorem getD_append_len (l : List α) (v d : α) :
    (l ++ [v]).getD l.length d = v := by
  induction l with
  | nil => simp
  | cons a t ih => simp [ih]

theorem getD_mem (l : List α) (i : Nat) (d : α) (h : i < l.length) :
    l.getD i d ∈ l := by
  induction l generalizing i with
  | nil => simp at h
  | cons a t ih =>
    cases i with
    | zero => simp
    | succ n =>
      simp only [List.getD_cons_succ]
      exact List.mem_cons_of_mem a (ih n (by simpa using h))

end ListLemmas

theorem idxOf_lt_length (n : String) (cols : List String) (h : n ∈ cols) :
    idxOf n cols < cols.length := by
  induction cols with
  | nil => simp at h
  | cons c cs ih =>
    by_cases hc : c = n
    · simp [idxOf, hc]
    · have hn : n ∈ cs := by
        rcases List.mem_cons.mp h with h1 | h1
        · exact absurd h1.symm hc
        · exact h1
      simp only [idxOf, if_neg hc, List.length_cons]
      exact Nat.succ_lt_succ (ih hn)

theorem idxOf_eq_length (n : String) (cols : List String) (h : n ∉ cols) :
    idxOf n cols = cols.length := by
  induction cols with
  | nil => rfl
  | cons c cs ih =>
    have hc : c ≠ n := fun he => h (by simp [he])
    have hn : n ∉ cs := fun hm => h (List.mem_cons_of_mem c hm)
    simp [idxOf, hc, ih hn]

theorem idxOf_append_mem (n : String) (cols l : List String) (h : n ∈ cols) :
    idxOf n (cols ++ l) = idxOf n cols := by
  induction cols with
  | nil => simp at h
  | cons c cs ih =>
    by_cases hc : c = n
    · simp [idxOf, hc]
    · have hn : n ∈ cs := by
        rcases List.mem_cons.mp h with h1 | h1
        · exact absurd h1.symm hc
        · exact h1
      simp [idxOf, hc, ih hn]

theorem idxOf_append_not_mem (n : String) (cols l : List String) (h : n ∉ cols) :
    idxOf n (cols ++ l) = cols.length + idxOf n l := by
  induction cols with
  | nil => simp
  | cons c cs ih =>
    have hc : c ≠ n := fun he => h (by simp [he])
    have hn : n ∉ cs := fun hm => h (List.mem_cons_of_mem c hm)
    simp [idxOf, hc, ih hn]
    omega

theorem idxOf_inj (m n : String) (cols : List String)
    (hm : m ∈ cols) (hn : n ∈ cols) (hne : m ≠ n) :
    idxOf m cols ≠ idxOf n cols := by
  induction cols with
  | nil => simp at hm
  | cons c cs ih =>
    by_cases hcm : c = m
    · have hcn : c ≠ n := fun he => hne (by rw [← hcm, he])
      simp only [idxOf, if_pos hcm, if_neg hcn]
      exact fun hfalse => Nat.succ_ne_zero _ hfalse.symm
    · by_cases hcn : c = n
      · simp only [idxOf, if_neg hcm, if_pos hcn]
        exact Nat.succ_ne_zero _
      · have hm' : m ∈ cs := by
          rcases List.mem_cons.mp hm with h1 | h1
          · exact absurd h1.symm hcm
          · exact h1
        have hn' : n ∈ cs := by
          rcases List.mem_cons.mp hn with h1 | h1
          · exact absurd h1.symm hcn
          · exact h1
        simp only [idxOf, if_neg hcm, if_neg hcn]
        intro he
        exact ih hm' hn' (Nat.succ_injective he)

theorem assignCol_rect (df : DF) (n : String) (f : List String → List Value → Value)
    (hR : Rect df) : Rect (assignCol df n f) := by
  unfold assignCol
  by_cases h : n ∈ df.cols
  · simp only [if_pos h]
    intro r hr
    rcases List.mem_map.mp hr with ⟨r0, hr0, rfl⟩
    simp [hR r0 hr0]
  · simp only [if_neg h]
    intro r hr
    rcases List.mem_map.mp hr with ⟨r0, hr0, rfl⟩
    simp [hR r0 hr0]

theorem assignCol_rows_length (df : DF) (n : String) (f : List String → List Value → Value) :
    (assignCol df n f).rows.length = df.rows.length := by
  unfold assignCol
  by_cases h : n ∈ df.cols <;> simp [h]

theorem assignCol_mem_cols (df : DF) (n : String) (f : List String → List Value → Value)
    (m : String) (hm : m ∈ df.cols) : m ∈ (assignCol df n f).cols := by
  unfold assignCol
  by_cases h : n ∈ df.cols <;> simp [h, hm]

theorem assignCol_target_mem (df : DF) (n : String) (f : List String → List Value → Value) :
    n ∈ (assignCol df n f).cols := by
  unfold assignCol
  by_cases h : n ∈ df.cols <;> simp [h]

theorem assignCol_cols_of_not_mem (df : DF) (n : String) (f : List String → List Value → Value)
    (h : n ∉ df.cols) : (assignCol df n f).cols = df.cols ++ [n] := by
  simp [assignCol, h]

theorem assignCol_rowAt (df : DF) (n : String) (f : List String → List Value → Value)
    (i : Nat) (hi : i < df.rows.length) :
    rowAt (assignCol df n f) i =
      (if n ∈ df.cols then (rowAt df i).set (idxOf n df.cols) (f df.cols (rowAt df i))
       else rowAt df i ++ [f df.cols (rowAt df i)]) := by
  unfold assignCol rowAt
  by_cases h : n ∈ df.cols
  · simp only [if_pos h]
    exact getD_map _ df.rows i [] [] hi
  · simp only [if_neg h]
    exact getD_map _ df.rows i [] [] hi

theorem rowAt_length (df : DF) (i : Nat) (hR : Rect df) (hi : i < df.rows.length) :
    (rowAt df i).length = df.cols.length :=
  hR (rowAt df i) (getD_mem df.rows i [] hi)

theorem assignCol_get_self (df : DF) (n : String) (f : List String → List Value → Value)
    (hR : Rect df) (i : Nat) (hi : i < df.rows.length) :
    getValC (assignCol df n f).cols (rowAt (assignCol df n f) i) n = f df.cols (rowAt df i) := by
  have hlen : (rowAt df i).length = df.cols.length := rowAt_length df i hR hi
  rw [assignCol_rowAt df n f i hi]
  by_cases h : n ∈ df.cols
  · simp only [if_pos h]
    unfold assignCol
    simp only [if_pos h]
    unfold getValC
    exact getD_set_self _ _ _ _ (by rw [hlen]; exact idxOf_lt_length n df.cols h)
  · simp only [if_neg h]
    unfold assignCol
    simp only [if_neg h]
    unfold getValC
    have hidx : idxOf n (df.cols ++ [n]) = (rowAt df i).length := by
      rw [idxOf_append_not_mem n df.cols [n] h, hlen]
      simp [idxOf]
    rw [hidx]
    exact getD_append_len _ _ _

theorem assignCol_get_other (df : DF) (n : String) (f : List String → List Value → Value)
    (hR : Rect df) (m : String) (hmn : m ≠ n) (i : Nat) (hi : i < df.rows.length) :
    getValC (assignCol df n f).cols (rowAt (assignCol df n f) i) m =
      getValC df.cols (rowAt df i) m := by
  have hlen : (rowAt df i).length = df.cols.length := rowAt_length df i hR hi
  rw [assignCol_rowAt df n f i hi]
  by_cases h : n ∈ df.cols
  · simp only [if_pos h]
    unfold assignCol
    simp only [if_pos h]
    unfold getValC
    by_cases hm : m ∈ df.cols
    · exact getD_set_ne _ _ _ _ _ (idxOf_inj n m df.cols h hm (fun he => hmn he.symm))
    · have h1 : idxOf m df.cols = df.cols.length := idxOf_eq_length m df.cols hm
      rw [h1, getD_default_of_le _ _ _ (by simp [hlen]),
          getD_default_of_le _ _ _ (by rw [hlen])]
  · simp only [if_neg h]
    unfold assignCol
    simp only [if_neg h]
    unfold getValC
    by_cases hm : m ∈ df.cols
    · rw [idxOf_append_mem m df.cols [n] hm]
      exact getD_append_left _ _ _ _ (by rw [hlen]; exact idxOf_lt_length m df.cols hm)
    · have hm' : m ∉ df.cols ++ [n] := by
        simp only [List.mem_append, List.mem_singleton]
        rintro (h1 | h1)
        · exact hm h1
        · exact hmn h1
      rw [idxOf_eq_length m _ hm', idxOf_eq_length m df.cols hm,
          getD_default_of_le _ _ _ (by simp [hlen]),
          getD_default_of_le _ _ _ (by rw [hlen])]

/-- Risk bucketing, the inner function of `compute_flags`: null score is
Unknown, a score at or above the high threshold is High, a score at or above
50 is Medium, anything else is Low. -/
def bucket (score : Option ℚ) (high_threshold : ℚ) : String :=
  match score with
  | none => "Unknown"
  | some q =>
    if q ≥ high_threshold then "High"
    else if q ≥ 50 then "Medium"
    else "Low"

/-- The needs-review test of `compute_flags`: the (coerced) assessment date is
missing, or strictly earlier than today minus the day threshold. -/
def needsReviewB (today days_threshold : Int) (d : Option Int) : Bool :=
  match d with
  | none => true
  | some x => decide (x < today - days_threshold)

/-- Elementwise op of the source line coercing the assessment-date column. -/
def fAD : List String → List Value → Value :=
  fun cols r => valOfDate (coerceDate (getValC cols r "Assessment Date"))

/-- Elementwise op of the source line coercing the risk-score column. -/
def fRS : List String → List Value → Value :=
  fun cols r => valOfNum (coerceNum (getValC cols r "Risk Score"))

/-- Elementwise op of the source line deriving days since review. -/
def fDSR (today : Int) : List String → List Value → Value :=
  fun cols r =>
    match coerceDate (getValC cols r "Assessment Date") with
    | some d => Value.num ((today - d : Int) : ℚ)
    | none => Value.na

/-- Elementwise op of the source line deriving the needs-review flag. -/
def fNR (today days_threshold : Int) : List String → List Value → Value :=
  fun cols r => Value.bool (needsReviewB today days_threshold
    (coerceDate (getValC cols r "Assessment Date")))

/-- Elementwise op of the source line deriving the risk category. -/
def fRC (high_threshold : ℚ) : List String → List Value → Value :=
  fun cols r => Value.str (bucket (coerceNum (getValC cols r "Risk Score")) high_threshold)

/-- The flag engine `compute_flags(df, days_threshold, high_threshold)`:
coerce the assessment-date and risk-score columns in place, then derive the
days-since-review, needs-review and risk-category columns.  `today` is the
run's current date normalized to day granularity. -/
def compute_flags (today days_threshold : Int) (high_threshold : ℚ) (df : DF) : DF :=
  let d1 := assignCol df "Assessment Date" fAD
  let d2 := assignCol d1 "Risk Score" fRS
  let d3 := assignCol d2 "Days Since Review" (fDSR today)
  let d4 := assignCol d3 "Needs Review" (fNR today days_threshold)
  assignCol d4 "Risk Category" (fRC high_threshold)

theorem compute_flags_facts (today days_threshold : Int) (high_threshold : ℚ) (df : DF)
    (hR : Rect df) (hAD : "Assessment Date" ∈ df.cols) (hRS : "Risk Score" ∈ df.cols) :
    Rect (compute_flags today days_threshold high_threshold df) ∧
    (compute_flags today days_threshold high_threshold df).rows.length = df.rows.length ∧
    "Assessment Date" ∈ (compute_flags today days_threshold high_threshold df).cols ∧
    "Risk Score" ∈ (compute_flags today days_threshold high_threshold df).cols ∧
    ∀ i, i < df.rows.length →
      getValC (compute_flags today days_threshold high_threshold df).cols
          (rowAt (compute_flags today days_threshold high_threshold df) i) "Assessment Date"
        = valOfDate (coerceDate (getValC df.cols (rowAt df i) "Assessment Date")) ∧
      getValC (compute_flags today days_threshold high_threshold df).cols
          (rowAt (compute_flags today days_threshold high_threshold df) i) "Risk Score"
        = valOfNum (coerceNum (getValC df.cols (rowAt df i) "Risk Score")) ∧
      getValC (compute_flags today days_threshold high_threshold df).cols
          (rowAt (compute_flags today days_threshold high_threshold df) i) "Needs Review"
        = Value.bool (needsReviewB today days_threshold
            (coerceDate (getValC df.cols (rowAt df i) "Assessment Date"))) ∧
      getValC (compute_flags today days_threshold high_threshold df).cols
          (rowAt (compute_flags today days_threshold high_threshold df) i) "Risk Category"
        = Value.str (bucket (coerceNum (getValC df.cols (rowAt df i) "Risk Score"))
            high_threshold) := by
  set D1 := assignCol df "Assessment Date" fAD with hD1
  set D2 := assignCol D1 "Risk Score" fRS with hD2
  set D3 := assignCol D2 "Days Since Review" (fDSR today) with hD3
  set D4 := assignCol D3 "Needs Review" (fNR today days_threshold) with hD4
  set D5 := assignCol D4 "Risk Category" (fRC high_threshold) with hD5
  have hCF : compute_flags today days_threshold high_threshold df = D5 := rfl
  have h1R : Rect D1 := assignCol_rect _ _ _ hR
  have h2R : Rect D2 := assignCol_rect _ _ _ h1R
  have h3R : Rect D3 := assignCol_rect _ _ _ h2R
  have h4R : Rect D4 := assignCol_rect _ _ _ h3R
  have h5R : Rect D5 := assignCol_rect _ _ _ h4R
  have h1L : D1.rows.length = df.rows.length := assignCol_rows_length _ _ _
  have h2L : D2.rows.length = D1.rows.length := assignCol_rows_length _ _ _
  have h3L : D3.rows.length = D2.rows.length := assignCol_rows_length _ _ _
  have h4L : D4.rows.length = D3.rows.length := assignCol_rows_length _ _ _
  have h5L : D5.rows.length = D4.rows.length := assignCol_rows_length _ _ _
  have hLen : D5.rows.length = df.rows.length := by rw [h5L, h4L, h3L, h2L, h1L]
  have hAD5 : "Assessment Date" ∈ D5.cols :=
    assignCol_mem_cols _ _ _ _ (assignCol_mem_cols _ _ _ _ (assignCol_mem_cols _ _ _ _
      (assignCol_mem_cols _ _ _ _ (assignCol_mem_cols _ _ _ _ hAD))))
  have hRS5 : "Risk Score" ∈ D5.cols :=
    assignCol_mem_cols _ _ _ _ (assignCol_mem_cols _ _ _ _ (assignCol_mem_cols _ _ _ _
      (assignCol_mem_cols _ _ _ _ (assignCol_mem_cols _ _ _ _ hRS))))
  rw [hCF]
  refine ⟨h5R, hLen, hAD5, hRS5, ?_⟩
  intro i hi
  have hi1 : i < D1.rows.length := by rw [h1L]; exact hi
  have hi2 : i < D2.rows.length := by rw [h2L]; exact hi1
  have hi3 : i < D3.rows.length := by rw [h3L]; exact hi2
  have hi4 : i < D4.rows.length := by rw [h4L]; exact hi3
  have vAD1 : getValC D1.cols (rowAt D1 i) "Assessment Date"
      = valOfDate (coerceDate (getValC df.cols (rowAt df i) "Assessment Date")) :=
    assignCol_get_self df "Assessment Date" fAD hR i hi
  have vRS1 : getValC D1.cols (rowAt D1 i) "Risk Score"
      = getValC df.cols (rowAt df i) "Risk Score" :=
    assignCol_get_other df "Assessment Date" fAD hR "Risk Score" (by decide) i hi
  have vRS2 : getValC D2.cols (rowAt D2 i) "Risk Score"
      = valOfNum (coerceNum (getValC df.cols (rowAt df i) "Risk Score")) := by
    have h := assignCol_get_self D1 "Risk Score" fRS h1R i hi1
    rw [h]
    show valOfNum (coerceNum (getValC D1.cols (rowAt D1 i) "Risk Score")) = _
    rw [vRS1]
  have vAD2 : getValC D2.cols (rowAt D2 i) "Assessment Date"
      = valOfDate (coerceDate (getValC df.cols (rowAt df i) "Assessment Date")) := by
    rw [assignCol_get_other D1 "Risk Score" fRS h1R "Assessment Date" (by decide) i hi1, vAD1]
  have vAD3 : getValC D3.cols (rowAt D3 i) "Assessment Date"
      = valOfDate (coerceDate (getValC df.cols (rowAt df i) "Assessment Date")) := by
    rw [assignCol_get_other D2 "Days Since Review" (fDSR today) h2R "Assessment Date" (by decide) i hi2, vAD2]
  have vRS3 : getValC D3.cols (rowAt D3 i) "Risk Score"
      = valOfNum (coerceNum (getValC df.cols (rowAt df i) "Risk Score")) := by
    rw [assignCol_get_other D2 "Days Since Review" (fDSR today) h2R "Risk Score" (by decide) i hi2, vRS2]
  have vNR4 : getValC D4.cols (rowAt D4 i) "Needs Review"
      = Value.bool (needsReviewB today days_threshold
          (coerceDate (getValC df.cols (rowAt df i) "Assessment Date"))) := by
    have h := assignCol_get_self D3 "Needs Review" (fNR today days_threshold) h3R i hi3
    rw [h]
    show Value.bool (needsReviewB today days_threshold
        (coerceDate (getValC D3.cols (rowAt D3 i) "Assessment Date"))) = _
    rw [vAD3, coerceDate_valOfDate]
  have vAD4 : getValC D4.cols (rowAt D4 i) "Assessment Date"
      = valOfDate (coerceDate (getValC df.cols (rowAt df i) "Assessment Date")) := by
    rw [assignCol_get_other D3 "Needs Review" (fNR today days_threshold) h3R "Assessment Date"
      (by decide) i hi3, vAD3]
  have vRS4 : getValC D4.cols (rowAt D4 i) "Risk Score"
      = valOfNum (coerceNum (getValC df.cols (rowAt df i) "Risk Score")) := by
    rw [assignCol_get_other D3 "Needs Review" (fNR today days_threshold) h3R "Risk Score"
      (by decide) i hi3, vRS3]
  have vRC5 : getValC D5.cols (rowAt D5 i) "Risk Category"
      = Value.str (bucket (coerceNum (getValC df.cols (rowAt df i) "Risk Score"))
          high_threshold) := by
    have h := assignCol_get_self D4 "Risk Category" (fRC high_threshold) h4R i hi4
    rw [h]
    show Value.str (bucket (coerceNum (getValC D4.cols (rowAt D4 i) "Risk Score"))
        high_threshold) = _
    rw [vRS4, coerceNum_valOfNum]
  have vNR5 : getValC D5.cols (rowAt D5 i) "Needs Review"
      = Value.bool (needsReviewB today days_threshold
          (coerceDate (getValC df.cols (rowAt df i) "Assessment Date"))) := by
    rw [assignCol_get_other D4 "Risk Category" (fRC high_threshold) h4R "Needs Review"
      (by decide) i hi4, vNR4]
  have vAD5 : getValC D5.cols (rowAt D5 i) "Assessment Date"
      = valOfDate (coerceDate (getValC df.cols (rowAt df i) "Assessment Date")) := by
    rw [assignCol_get_other D4 "Risk Category" (fRC high_threshold) h4R "Assessment Date"
      (by decide) i hi4, vAD4]
  have vRS5 : getValC D5.cols (rowAt D5 i) "Risk Score"
      = valOfNum (coerceNum (getValC df.cols (rowAt df i) "Risk Score")) := by
    rw [assignCol_get_other D4 "Risk Category" (fRC high_threshold) h4R "Risk Score"
      (by decide) i hi4, vRS4]
  exact ⟨vAD5, vRS5, vNR5, vRC5⟩

/-- The five required logical columns checked by `ensure_columns`. -/
def expectedCols : List String :=
  ["Vendor Name", "Service", "Risk Score", "Assessment Date", "Remediation Status"]

/-- Header normalization of `ensure_columns`: column names are trimmed of
surrounding whitespace. -/
def stripCols (df : DF) : DF := ⟨df.cols.map strip, df.rows⟩

/-- The loop of `ensure_columns`: for each expected column absent from the
dataframe, assign an all-null column and record a warning. -/
def addMissing : DF → List String → DF × List String
  | df, [] => (df, [])
  | df, c :: rest =>
    if c ∈ df.cols then addMissing df rest
    else
      let res := addMissing (assignCol df c (fun _ _ => Value.na)) rest
      (res.1, c :: res.2)

/-- `ensure_columns(df)`: trim the header names, then synthesize every
missing required column as all-null, warning once per missing column. -/
def ensure_columns (df : DF) : DF × List String := addMissing (stripCols df) expectedCols

theorem addMissing_cols_mono (exp : List String) (df : DF) (c : String) (h : c ∈ df.cols) :
    c ∈ (addMissing df exp).1.cols := by
  induction exp generalizing df with
  | nil => exact h
  | cons d rest ih =>
    by_cases hd : d ∈ df.cols
    · simp only [addMissing, if_pos hd]
      exact ih df h
    · simp only [addMissing, if_neg hd]
      exact ih _ (assignCol_mem_cols df d _ c h)

theorem addMissing_mem (exp : List String) (df : DF) (c : String) (h : c ∈ exp) :
    c ∈ (addMissing df exp).1.cols := by
  induction exp generalizing df with
  | nil => simp at h
  | cons d rest ih =>
    by_cases hd : d ∈ df.cols
    · simp only [addMissing, if_pos hd]
      rcases List.mem_cons.mp h with h1 | h1
      · exact addMissing_cols_mono rest df c (h1 ▸ hd)
      · exact ih df h1
    · simp only [addMissing, if_neg hd]
      rcases List.mem_cons.mp h with h1 | h1
      · exact addMissing_cols_mono rest _ c (h1 ▸ assignCol_target_mem df d _)
      · exact ih _ h1

theorem addMissing_warns (exp : List String) (df : DF) (c : String) :
    c ∈ (addMissing df exp).2 ↔ (c ∈ exp ∧ c ∉ df.cols) := by
  induction exp generalizing df with
  | nil => simp [addMissing]
  | cons d rest ih =>
    by_cases hd : d ∈ df.cols
    · simp only [addMissing, if_pos hd]
      rw [ih df]
      constructor
      · rintro ⟨h1, h2⟩
        exact ⟨List.mem_cons_of_mem d h1, h2⟩
      · rintro ⟨h1, h2⟩
        rcases List.mem_cons.mp h1 with h3 | h3
        · exact absurd (h3 ▸ hd) h2
        · exact ⟨h3, h2⟩
    · simp only [addMissing, if_neg hd, List.mem_cons]
      rw [ih _]
      rw [assignCol_cols_of_not_mem df d _ hd]
      simp only [List.mem_append, List.mem_singleton]
      constructor
      · rintro (h1 | ⟨h1, h2⟩)
        · exact ⟨Or.inl h1, h1 ▸ hd⟩
        · exact ⟨Or.inr h1, fun hc => h2 (Or.inl hc)⟩
      · rintro ⟨h1 | h1, h2⟩
        · exact Or.inl h1
        · by_cases hcd : c = d
          · exact Or.inl hcd
          · exact Or.inr ⟨h1, by rintro (h3 | h3); exact h2 h3; exact hcd h3⟩

theorem addMissing_rect (exp : List String) (df : DF) (hR : Rect df) :
    Rect (addMissing df exp).1 := by
  induction exp generalizing df with
  | nil => exact hR
  | cons d rest ih =>
    by_cases hd : d ∈ df.cols
    · simp only [addMissing, if_pos hd]
      exact ih df hR
    · simp only [addMissing, if_neg hd]
      exact ih _ (assignCol_rect df d _ hR)

theorem addMissing_rows_length (exp : List String) (df : DF) :
    (addMissing df exp).1.rows.length = df.rows.length := by
  induction exp generalizing df with
  | nil => rfl
  | cons d rest ih =>
    by_cases hd : d ∈ df.cols
    · simp only [addMissing, if_pos hd]
      exact ih df
    · simp only [addMissing, if_neg hd]
      rw [ih _, assignCol_rows_length]

theorem addMissing_preserve (exp : List String) (df : DF) (c : String)
    (hR : Rect df) (hc : c ∈ df.cols) (i : Nat) :
    getValC (addMissing df exp).1.cols (rowAt (addMissing df exp).1 i) c
      = getValC df.cols (rowAt df i) c := by
  induction exp generalizing df with
  | nil => rfl
  | cons d rest ih =>
    by_cases hd : d ∈ df.cols
    · simp only [addMissing, if_pos hd]
      exact ih df hR hc
    · simp only [addMissing, if_neg hd]
      by_cases hi : i < df.rows.length
      · rw [ih _ (assignCol_rect df d _ hR) (assignCol_mem_cols df d _ c hc)]
        have hcd : c ≠ d := fun he => hd (he ▸ hc)
        exact assignCol_get_other df d _ hR c hcd i hi
      · have h1 : rowAt (addMissing (assignCol df d (fun _ _ => Value.na)) rest).1 i = [] := by
          unfold rowAt
          apply getD_default_of_le
          rw [addMissing_rows_length, assignCol_rows_length]
          omega
        have h2 : rowAt df i = [] := by
          unfold rowAt
          apply getD_default_of_le
          omega
        rw [h1, h2]
        rfl

theorem addMissing_null (exp : List String) (df : DF) (c : String)
    (hR : Rect df) (hc : c ∈ exp) (habs : c ∉ df.cols) (i : Nat) :
    getValC (addMissing df exp).1.cols (rowAt (addMissing df exp).1 i) c = Value.na := by
  induction exp generalizing df with
  | nil => simp at hc
  | cons d rest ih =>
    by_cases hd : d ∈ df.cols
    · simp only [addMissing, if_pos hd]
      have hcd : c ≠ d := fun he => habs (he ▸ hd)
      rcases List.mem_cons.mp hc with h1 | h1
      · exact absurd h1 hcd
      · exact ih df hR h1 habs
    · simp only [addMissing, if_neg hd]
      by_cases hcd : c = d
      · subst hcd
        have hmem : c ∈ (assignCol df c (fun _ _ => Value.na)).cols := assignCol_target_mem df c _
        rw [addMissing_preserve rest _ c (assignCol_rect df c _ hR) hmem i]
        by_cases hi : i < df.rows.length
        · exact assignCol_get_self df c _ hR i hi
        · have h1 : rowAt (assignCol df c (fun _ _ => Value.na)) i = [] := by
            unfold rowAt
            apply getD_default_of_le
            rw [assignCol_rows_length]
            omega
          rw [h1]
          rfl
      · have h1 : c ∈ rest := by
          rcases List.mem_cons.mp hc with h2 | h2
          · exact absurd h2 hcd
          · exact h2
        have h2 : c ∉ (assignCol df d (fun _ _ => Value.na)).cols := by
          rw [assignCol_cols_of_not_mem df d _ hd]
          simp only [List.mem_append, List.mem_singleton]
          rintro (h3 | h3)
          · exact habs h3
          · exact hcd h3
        exact ih _ (assignCol_rect df d _ hR) h1 h2

/-- First element of the list satisfying the predicate, in list order. -/
def firstSuch (p : String → Bool) : List String → Option String
  | [] => none
  | x :: t => if p x then some x else firstSuch p t

/-- The final path component, `pathlib.PurePath.name` over forward slashes. -/
def lastNameOf (l : List Char) : List Char :=
  l.foldl (fun acc c => if c = '/' then [] else acc ++ [c]) []

/-- Index of the last dot in a name, if any. -/
def rfindDotIdx : List Char → Option Nat
  | [] => none
  | c :: t =>
    match rfindDotIdx t with
    | some i => some (i + 1)
    | none => if c = '.' then some 0 else none

/-- `pathlib.PurePath.suffix`: the extension of the final component, empty
for dotless names, leading-dot names and trailing-dot names. -/
def pathSuffix (p : String) : String :=
  let nm := lastNameOf p.toList
  match rfindDotIdx nm with
  | some i => if 0 < i ∧ i < nm.length - 1 then String.mk (nm.drop i) else ""
  | none => ""

/-- Extension test of `load_input`: suffix lowercased is `.xls` or `.xlsx`. -/
def isExcelPath (p : String) : Bool :=
  lower (pathSuffix p) == ".xls" || lower (pathSuffix p) == ".xlsx"

/-- `load_input(preferred)`: probe the candidate paths in order, parse the
first that exists (spreadsheet parser for Excel suffixes, CSV parser
otherwise) and return the dataframe with the chosen path; raise the
input-not-found error when no candidate exists. -/
def load_input (pathExists : String → Bool) (readXl readCsv : String → DF) :
    List String → Except String (DF × String)
  | [] => Except.error "Input file not found"
  | p :: rest =>
    if pathExists p then
      Except.ok (if isExcelPath p then readXl p else readCsv p, p)
    else load_input pathExists readXl readCsv rest

/-- A spreadsheet cell: its value and its fill color, if any was applied. -/
abbrev ExCell := Value × Option String

/-- A worksheet: its rows of cells, the first row being the header. -/
abbrev Sheet := List (List ExCell)

/-- A workbook: named worksheets. -/
abbrev Workbook := List (String × Sheet)

def lookupSheet : Workbook → String → Option Sheet
  | [], _ => none
  | (m, s) :: t, n => if m = n then some s else lookupSheet t n

/-- Replace the (first) sheet with the given name. -/
def setSheet : Workbook → String → Sheet → Workbook
  | [], _, _ => []
  | (m, s0) :: t, n, s => if m = n then (n, s) :: t else (m, s0) :: setSheet t n s

/-- Index of the first header cell holding the given value, the model of
Python `headers.index(value)`. -/
def valueIndexOf (v : Value) : List Value → Option Nat
  | [] => none
  | w :: t => if w = v then some 0 else (valueIndexOf v t).map (fun i => i + 1)

/-- The tolerant truthy test of `highlight_excel` on a flag cell: a literal
boolean, a stripped lowercased string among true/1/yes, or the number 1. -/
def truthyCell (v : Value) : Bool :=
  match v with
  | Value.bool b => b
  | Value.str s =>
    lower (strip s) == "true" || lower (strip s) == "1" || lower (strip s) == "yes"
  | Value.num q => q == 1
  | _ => false

/-- Greatest row width of a sheet, the model of `ws.max_column`. -/
def maxColOf (ws : Sheet) : Nat := ws.foldr (fun r m => max r.length m) 0

/-- Extend a row with empty unfilled cells up to the given width, as
`ws.cell(row, col)` materializes cells up to `max_column`. -/
def padTo (r : List ExCell) (n : Nat) : List ExCell :=
  r ++ List.replicate (n - r.length) (Value.na, none)

/-- The row loop of `highlight_excel`: every data row whose flag cell is
truthy gets the solid fill applied across all of its columns. -/
def highlightRows (rows : List (List ExCell)) (flagIdx maxCol : Nat) (hex : String) :
    List (List ExCell) :=
  rows.map (fun r =>
    if truthyCell ((r.getD flagIdx (Value.na, none)).1)
    then (padTo r maxCol).map (fun c => (c.1, some hex))
    else r)

/-- `highlight_excel(excel_path, fill_hex)` on an opened workbook: if the
Vendor Register sheet is absent, or its header row has no Needs Review cell,
the workbook is left unchanged; otherwise each data row with a truthy flag
cell is filled across all columns. -/
def highlight_excel (wb : Workbook) (fill_hex : String) : Workbook :=
  match lookupSheet wb "Vendor Register" with
  | none => wb
  | some ws =>
    match valueIndexOf (Value.str "Needs Review") ((ws.getD 0 []).map (fun c => c.1)) with
    | none => wb
    | some flagIdx =>
      match ws with
      | [] => setSheet wb "Vendor Register" []
      | hdr :: dataRows =>
        setSheet wb "Vendor Register"
          (hdr :: highlightRows dataRows flagIdx (maxColOf (hdr :: dataRows)) fill_hex)

/-- A data row counts as fully filled when it has cells and every one of
them carries a fill. -/
def fullyFilled (r : List ExCell) : Bool :=
  decide (r ≠ []) && r.all (fun c => (c.2).isSome)

/-- Transparent row counter used to compare filled and flagged rows. -/
def countRows (p : List ExCell → Bool) : List (List ExCell) → Nat
  | [] => 0
  | r :: t => (if p r then 1 else 0) + countRows p t

/-- Contents of the files the pipeline writes: tabular data (CSV or the
source register), workbooks, and chart images abstracted to plotted pairs. -/
inductive FileData where
  | table : DF → FileData
  | xlsx : Workbook → FileData
  | png : List (Value × Value) → FileData
deriving DecidableEq

/-- The file system: an association list from paths to file contents, most
recent write first. -/
abbrev FS := List (String × FileData)

def fsWrite (fs : FS) (p : String) (d : FileData) : FS := (p, d) :: fs

def fsRead : FS → String → Option FileData
  | [], _ => none
  | (q, d) :: t, p => if q = p then some d else fsRead t p

/-- Row predicate of the high-risk extract: the risk-score cell compares at
or above the threshold (null never does). -/
def numGEb (v : Value) (t : ℚ) : Bool :=
  match v with
  | Value.num q => decide (t ≤ q)
  | _ => false

/-- Row predicate of the needs-review extract: the boolean mask of the
needs-review column. -/
def boolMask (v : Value) : Bool :=
  match v with
  | Value.bool b => b
  | _ => false

/-- The rows selected by `df.loc[df[Risk Score] >= high_threshold]`. -/
def highRiskDF (df : DF) (high_threshold : ℚ) : DF :=
  ⟨df.cols, df.rows.filter (fun r => numGEb (getValC df.cols r "Risk Score") high_threshold)⟩

/-- The rows selected by `df.loc[df[Needs Review]]`. -/
def needsReviewDF (df : DF) : DF :=
  ⟨df.cols, df.rows.filter (fun r => boolMask (getValC df.cols r "Needs Review"))⟩

/-- `save_outputs(df, outdir, high_threshold)`: write the high-risk and
needs-review CSV extracts and return the three artifact paths.  The source
contains no statement writing the Excel file: the third path is computed and
returned, but nothing is stored at it (the body holds only a placeholder
comment where the Excel write would go). -/
def save_outputs (df : DF) (outdir : String) (high_threshold : ℚ) (fs : FS) :
    FS × String × String × String :=
  let high_path := outdir ++ "/high_risk.csv"
  let needs_path := outdir ++ "/needs_review.csv"
  let excel_path := outdir ++ "/vendor_register_flagged.xlsx"
  let fs1 := fsWrite fs high_path (FileData.table (highRiskDF df high_threshold))
  let fs2 := fsWrite fs1 needs_path (FileData.table (needsReviewDF df))
  (fs2, high_path, needs_path, excel_path)

/-- Insertion step of the sort used in the chart model. -/
def insertBy {α : Type u} (le : α → α → Bool) (x : α) : List α → List α
  | [] => [x]
  | y :: t => if le x y then x :: y :: t else y :: insertBy le x t

/-- Insertion sort by a boolean order, the model of `sort_values`. -/
def sortBy {α : Type u} (le : α → α → Bool) : List α → List α
  | [] => []
  | x :: t => insertBy le x (sortBy le t)

/-- Descending risk-score order with null scores sorted last. -/
def scoreGEb (cols : List String) (a b : List Value) : Bool :=
  match getValC cols a "Risk Score", getValC cols b "Risk Score" with
  | Value.num x, Value.num y => decide (y ≤ x)
  | Value.num _, _ => true
  | _, Value.num _ => false
  | _, _ => true

def fillUnknown (v : Value) : Value :=
  match v with
  | Value.na => Value.str "Unknown"
  | w => w

def bumpCount (v : Value) : List (Value × Nat) → List (Value × Nat)
  | [] => [(v, 1)]
  | (w, k) :: t => if w = v then (w, k + 1) :: t else (w, k) :: bumpCount v t

/-- Occurrence counts in first-appearance order, the model of
`value_counts` before its descending sort. -/
def tally (l : List Value) : List (Value × Nat) := l.foldl (fun acc v => bumpCount v acc) []

/-- `make_charts(df, outdir)`: write the top-5 risk bar chart when the
selection is nonempty and the remediation-status pie when there is data. -/
def make_charts (df : DF) (outdir : String) (fs : FS) : FS :=
  let top5 := (sortBy (scoreGEb df.cols) df.rows).take 5
  let fs1 :=
    if top5 = [] then fs
    else fsWrite fs (outdir ++ "/top5_high_risk.png")
      (FileData.png (top5.map (fun r =>
        (getValC df.cols r "Vendor Name", getValC df.cols r "Risk Score"))))
  let counts := sortBy (fun a b => decide (b.2 ≤ a.2))
    (tally (df.rows.map (fun r => fillUnknown (getValC df.cols r "Remediation Status"))))
  if counts = [] then fs1
  else fsWrite fs1 (outdir ++ "/remediation_status_pie.png")
    (FileData.png (counts.map (fun p => (p.1, Value.num (p.2 : ℚ)))))

/-- How a run can terminate abnormally: the loader's fatal input-not-found
error, or an unhandled error opening a written artifact. -/
inductive RunError where
  | inputNotFound : RunError
  | fileNotFound : String → RunError
  | badFile : String → RunError
deriving DecidableEq

/-- Default candidate inputs probed when `--input` is omitted. -/
def defaultCandidates : List String :=
  ["data/vendor_register_template.xlsx", "data/vendor_register_template.csv"]

/-- Read a tabular input file from the file-system model. -/
def readTable (fs : FS) (p : String) : DF :=
  match fsRead fs p with
  | some (FileData.table df) => df
  | _ => ⟨[], []⟩

/-- The `main()` pipeline: resolve and load the input, complete the schema,
compute flags, save the CSV outputs, re-open the spreadsheet for
highlighting (a fatal error when no file exists at that path), then render
charts.  `today` is the run's current date at day granularity. -/
def main_run (today : Int) (input : Option String) (outdir : String)
    (days threshold : Int) (fs : FS) : Except RunError FS :=
  let paths := match input with
    | some p => [p]
    | none => defaultCandidates
  match load_input (fun p => (fsRead fs p).isSome) (readTable fs) (readTable fs) paths with
  | Except.error _ => Except.error RunError.inputNotFound
  | Except.ok (df0, _) =>
    let df1 := (ensure_columns df0).1
    let df2 := compute_flags today days (threshold : ℚ) df1
    let res := save_outputs df2 outdir (threshold : ℚ) fs
    match fsRead res.1 res.2.2.2 with
    | none => Except.error (RunError.fileNotFound res.2.2.2)
    | some (FileData.xlsx wb) =>
      Except.ok (make_charts df2 outdir
        (fsWrite res.1 res.2.2.2 (FileData.xlsx (highlight_excel wb "FFF2CC"))))
    | some _ => Except.error (RunError.badFile res.2.2.2)

/-- Risk-category rule as the specification words it: null score is Unknown,
a score at or above high_threshold is High, at or above 50 Medium, else Low. -/
def specRiskCategory (score : Option ℚ) (high_threshold : ℚ) : String :=
  match score with
  | none => "Unknown"
  | some q =>
    if q ≥ high_threshold then "High"
    else if q ≥ 50 then "Medium"
    else "Low"

/-- Needs-review rule as the specification words it: true exactly when the
assessment date is null or strictly earlier than the evaluation date minus
the day threshold. -/
def specNeedsReview (evalDate days_threshold : Int) (d : Option Int) : Bool :=
  match d with
  | none => true
  | some x => decide (x < evalDate - days_threshold)

/-- Flagged-cell rule as the claim words it, read strictly: a literal
boolean true, a case-insensitive string in the true/1/yes set (no whitespace
trimming), or a number equal to 1. -/
def specTruthyStrict (v : Value) : Bool :=
  match v with
  | Value.bool b => b
  | Value.str s => lower s == "true" || lower s == "1" || lower s == "yes"
  | Value.num q => q == 1
  | _ => false

/-- Flagged-cell rule amended with the whitespace trimming the source
applies before the case-insensitive set test. -/
def specTruthy (v : Value) : Bool :=
  match v with
  | Value.bool b => b
  | Value.str s => lower (strip s) == "true" || lower (strip s) == "1" || lower (strip s) == "yes"
  | Value.num q => q == 1
  | _ => false

theorem truthyCell_eq_specTruthy (v : Value) : truthyCell v = specTruthy v := by
  cases v <;> rfl

theorem bucket_eq_specRiskCategory (s : Option ℚ) (h : ℚ) :
    bucket s h = specRiskCategory s h := by
  cases s <;> rfl

theorem needsReviewB_eq_specNeedsReview (t d : Int) (o : Option Int) :
    needsReviewB t d o = specNeedsReview t d o := by
  cases o <;> rfl

theorem string_append_right_cancel (a b c : String) (h : b ≠ c) : a ++ b ≠ a ++ c := by
  intro he
  apply h
  obtain ⟨la⟩ := a
  obtain ⟨lb⟩ := b
  obtain ⟨lc⟩ := c
  have h2 : String.mk (la ++ lb) = String.mk (la ++ lc) := he
  have h3 : la ++ lb = la ++ lc := by injection h2
  have h4 : lb = lc := List.append_cancel_left h3
  rw [h4]

theorem fsRead_write_eq (fs : FS) (p : String) (d : FileData) :
    fsRead (fsWrite fs p d) p = some d := by
  simp [fsRead, fsWrite]

theorem fsRead_write_ne (fs : FS) (p q : String) (d : FileData) (h : p ≠ q) :
    fsRead (fsWrite fs p d) q = fsRead fs q := by
  simp [fsRead, fsWrite, h]

theorem setSheet_lookup_self (wb : Workbook) (n : String) (ws : Sheet)
    (h : lookupSheet wb n = some ws) : setSheet wb n ws = wb := by
  induction wb with
  | nil => simp [lookupSheet] at h
  | cons p t ih =>
    obtain ⟨m, s0⟩ := p
    by_cases hm : m = n
    · simp only [lookupSheet, if_pos hm] at h
      injection h with h
      simp [setSheet, hm, h]
    · simp only [lookupSheet, if_neg hm] at h
      simp [setSheet, hm, ih h]

theorem highlightRows_cons (r : List ExCell) (t : List (List ExCell)) (fi L : Nat)
    (hex : String) :
    highlightRows (r :: t) fi L hex =
      (if truthyCell ((r.getD fi (Value.na, none)).1)
       then (padTo r L).map (fun c => (c.1, some hex))
       else r) :: highlightRows t fi L hex := rfl

theorem countRows_cons (p : List ExCell → Bool) (r : List ExCell) (t : List (List ExCell)) :
    countRows p (r :: t) = (if p r then 1 else 0) + countRows p t := rfl

theorem maxColOf_const (ws : Sheet) (L : Nat) (hne : ws ≠ [])
    (h : ∀ r ∈ ws, r.length = L) : maxColOf ws = L := by
  induction ws with
  | nil => exact absurd rfl hne
  | cons r t ih =>
    by_cases ht : t = []
    · subst ht
      simp [maxColOf, h r (List.mem_cons_self r [])]
    · have h1 : maxColOf t = L := ih ht (fun x hx => h x (List.mem_cons_of_mem _ hx))
      simp only [maxColOf, List.foldr_cons] at h1 ⊢
      rw [h1, h r (List.mem_cons_self r t)]
      exact Nat.max_self L

theorem padTo_of_length (r : List ExCell) (L : Nat) (h : r.length = L) :
    padTo r L = r := by
  simp [padTo, h]

theorem highlightRows_count (rows : List (List ExCell)) (fi L : Nat) (hex : String)
    (hL : 0 < L)
    (hlen : ∀ r ∈ rows, r.length = L)
    (hfills : ∀ r ∈ rows, ∀ c ∈ r, c.2 = (none : Option String)) :
    countRows fullyFilled (highlightRows rows fi L hex)
      = countRows (fun r => truthyCell ((r.getD fi (Value.na, none)).1)) rows := by
  induction rows with
  | nil => rfl
  | cons r t ih =>
    have hr : r.length = L := hlen r (List.mem_cons_self r t)
    have hrt : ∀ x ∈ t, x.length = L := fun x hx => hlen x (List.mem_cons_of_mem _ hx)
    have hft : ∀ x ∈ t, ∀ c ∈ x, c.2 = (none : Option String) :=
      fun x hx => hfills x (List.mem_cons_of_mem _ hx)
    have h2 := ih hrt hft
    rw [highlightRows_cons, countRows_cons]
    cases hflag : truthyCell ((r.getD fi (Value.na, none)).1) with
    | true =>
      have h1 : fullyFilled ((padTo r L).map (fun c => (c.1, some hex))) = true := by
        rw [padTo_of_length r L hr]
        cases r with
        | nil => rw [List.length_nil] at hr; omega
        | cons c cs => simp [fullyFilled, List.all_eq_true, List.mem_map]
      rw [countRows_cons, if_pos (rfl : true = true), h1,
          if_pos (rfl : true = true), hflag, if_pos (rfl : true = true), h2]
    | false =>
      have h1 : fullyFilled r = false := by
        cases r with
        | nil => rw [List.length_nil] at hr; omega
        | cons c cs =>
          have hc : c.2 = (none : Option String) :=
            hfills (c :: cs) (List.mem_cons_self _ _) c (List.mem_cons_self c cs)
          simp [fullyFilled, List.all_cons, hc]
      rw [countRows_cons, if_neg Bool.false_ne_true, h1,
          if_neg Bool.false_ne_true, hflag, if_neg Bool.false_ne_true, h2]

theorem highlightRows_id_of_no_flag (rows : List (List ExCell)) (fi L : Nat) (hex : String)
    (h : ∀ r ∈ rows, truthyCell ((r.getD fi (Value.na, none)).1) = false) :
    highlightRows rows fi L hex = rows := by
  induction rows with
  | nil => rfl
  | cons r t ih =>
    have h3 := ih (fun x hx => h x (List.mem_cons_of_mem r hx))
    rw [highlightRows_cons, h r (List.mem_cons_self r t), h3]
    rw [if_neg Bool.false_ne_true]

theorem countRows_eq_zero_iff (p : List ExCell → Bool) (rows : List (List ExCell)) :
    countRows p rows = 0 ↔ ∀ r ∈ rows, p r = false := by
  induction rows with
  | nil => simp [countRows]
  | cons r t ih =>
    rw [countRows_cons]
    constructor
    · intro h
      cases hp : p r with
      | true => rw [hp] at h; simp at h
      | false =>
        rw [hp] at h
        simp only [Bool.false_eq_true, if_false, Nat.zero_add] at h
        intro x hx
        rcases List.mem_cons.mp hx with hx | hx
        · rw [hx]; exact hp
        · exact (ih.mp h) x hx
    · intro h
      rw [h r (List.mem_cons_self r t)]
      simp only [Bool.false_eq_true, if_false, Nat.zero_add]
      exact ih.mpr (fun x hx => h x (List.mem_cons_of_mem _ hx))

/-- One-row register used to evaluate the pipeline on concrete data. -/
def sampleRow : List Value :=
  [Value.str "Acme", Value.str "Hosting", Value.num 90,
   Value.date (daysFromCivil 2022 1 1), Value.str "Open"]

def sampleDF : DF := ⟨expectedCols, [sampleRow]⟩

/-- A file system holding only the CSV register template. -/
def sampleFS : FS := [("data/vendor_register_template.csv", FileData.table sampleDF)]

/-- A source dataframe with padded header names and three required columns
missing. -/
def wMissingDF : DF := ⟨[" Vendor Name ", "Service"], [[Value.str "A", Value.str "S"]]⟩

/-- A workbook with one truthy and one falsy needs-review flag. -/
def wbSample : Workbook :=
  [("Vendor Register",
    [[(Value.str "Vendor Name", none), (Value.str "Needs Review", none)],
     [(Value.str "Acme", none), (Value.bool true, none)],
     [(Value.str "Beta", none), (Value.bool false, none)]])]

/-- A workbook whose flag cell is the string true with leading whitespace. -/
def wbCtr : Workbook :=
  [("Vendor Register",
    [[(Value.str "Vendor Name", none), (Value.str "Needs Review", none)],
     [(Value.str "Acme", none), (Value.str " true", none)]])]

section ClaimTheorems

attribute [local semireducible] Rat.add Rat.mul Rat.inv Rat.sub

/-- C1: `save_outputs` returns the spreadsheet path
`outdir/vendor_register_flagged.xlsx` but stores nothing there: the file
system is unchanged at that path (the source body holds only a placeholder
comment in place of the Excel write), so no spreadsheet with the flagged
dataset is produced.  Evaluated concretely, after `save_outputs` on an empty
file system no file exists at the returned Excel path. -/
theorem save_outputs_no_excel_write (df : DF) (outdir : String) (high_threshold : ℚ)
    (fs : FS) :
    (save_outputs df outdir high_threshold fs).2.2.2
      = outdir ++ "/vendor_register_flagged.xlsx" ∧
    fsRead (save_outputs df outdir high_threshold fs).1
        (outdir ++ "/vendor_register_flagged.xlsx")
      = fsRead fs (outdir ++ "/vendor_register_flagged.xlsx") ∧
    fsRead (save_outputs sampleDF "outputs" 80 []).1 "outputs/vendor_register_flagged.xlsx"
      = none := by
  refine ⟨rfl, ?_, by decide⟩
  have h1 : outdir ++ "/needs_review.csv" ≠ outdir ++ "/vendor_register_flagged.xlsx" :=
    string_append_right_cancel _ _ _ (by decide)
  have h2 : outdir ++ "/high_risk.csv" ≠ outdir ++ "/vendor_register_flagged.xlsx" :=
    string_append_right_cancel _ _ _ (by decide)
  show fsRead (fsWrite (fsWrite fs _ _) _ _) _ = _
  rw [fsRead_write_ne _ _ _ _ h1, fsRead_write_ne _ _ _ _ h2]

/-- C2: a run on a file system that does contain a candidate input still
terminates with an error that is not the input-not-found error: because
`save_outputs` never writes the spreadsheet, the highlighting step's
`load_workbook` finds no file at the Excel path and the run aborts there. -/
theorem run_crashes_at_highlight :
    main_run 0 none "outputs" 365 80 sampleFS
      = Except.error (RunError.fileNotFound "outputs/vendor_register_flagged.xlsx") := by
  rfl

/-- C3: after `compute_flags`, every row's Risk Category cell equals the
specification's pure function of the coerced Risk Score and high_threshold:
null score Unknown, score at or above the threshold High, at or above 50
Medium, otherwise Low; in particular with threshold 80 the scores 80, 79.9,
50, 49.9 and null map to High, Medium, Medium, Low and Unknown. -/
theorem risk_category_spec (today days_threshold : Int) (high_threshold : ℚ) (df : DF)
    (hR : Rect df) (hAD : "Assessment Date" ∈ df.cols) (hRS : "Risk Score" ∈ df.cols)
    (i : Nat) (hi : i < df.rows.length) :
    getValC (compute_flags today days_threshold high_threshold df).cols
        (rowAt (compute_flags today days_threshold high_threshold df) i) "Risk Category"
      = Value.str (specRiskCategory
          (coerceNum (getValC df.cols (rowAt df i) "Risk Score")) high_threshold) ∧
    specRiskCategory (some 80) 80 = "High" ∧
    specRiskCategory (some (799/10)) 80 = "Medium" ∧
    specRiskCategory (some 50) 80 = "Medium" ∧
    specRiskCategory (some (499/10)) 80 = "Low" ∧
    specRiskCategory none 80 = "Unknown" := by
  refine ⟨?_, by decide, by decide, by decide, by decide, rfl⟩
  have h := (compute_flags_facts today days_threshold high_threshold df hR hAD hRS).2.2.2.2 i hi
  rw [h.2.2.2, bucket_eq_specRiskCategory]

theorem risk_category_spec_witness :
    getValC (compute_flags 0 365 80 sampleDF).cols
        (rowAt (compute_flags 0 365 80 sampleDF) 0) "Risk Category"
      = Value.str (specRiskCategory
          (coerceNum (getValC sampleDF.cols (rowAt sampleDF 0) "Risk Score")) 80) :=
  (risk_category_spec 0 365 80 sampleDF (by decide) (by decide) (by decide) 0 (by decide)).1

/-- C4: after `compute_flags`, every row's Needs Review cell is true exactly
when the coerced Assessment Date is null or strictly earlier than the
evaluation date minus days_threshold; in particular with threshold 365 and
evaluation date 2024-06-01, the dates 2022-01-01 and 2024-05-01 give true
and false, and a null date gives true. -/
theorem needs_review_spec (today days_threshold : Int) (high_threshold : ℚ) (df : DF)
    (hR : Rect df) (hAD : "Assessment Date" ∈ df.cols) (hRS : "Risk Score" ∈ df.cols)
    (i : Nat) (hi : i < df.rows.length) :
    getValC (compute_flags today days_threshold high_threshold df).cols
        (rowAt (compute_flags today days_threshold high_threshold df) i) "Needs Review"
      = Value.bool (specNeedsReview today days_threshold
          (coerceDate (getValC df.cols (rowAt df i) "Assessment Date"))) ∧
    specNeedsReview (daysFromCivil 2024 6 1) 365 (some (daysFromCivil 2022 1 1)) = true ∧
    specNeedsReview (daysFromCivil 2024 6 1) 365 (some (daysFromCivil 2024 5 1)) = false ∧
    specNeedsReview (daysFromCivil 2024 6 1) 365 none = true := by
  refine ⟨?_, by decide, by decide, rfl⟩
  have h := (compute_flags_facts today days_threshold high_threshold df hR hAD hRS).2.2.2.2 i hi
  rw [h.2.2.1, needsReviewB_eq_specNeedsReview]

theorem needs_review_spec_witness :
    getValC (compute_flags 0 365 80 sampleDF).cols
        (rowAt (compute_flags 0 365 80 sampleDF) 0) "Needs Review"
      = Value.bool (specNeedsReview 0 365
          (coerceDate (getValC sampleDF.cols (rowAt sampleDF 0) "Assessment Date"))) :=
  (needs_review_spec 0 365 80 sampleDF (by decide) (by decide) (by decide) 0 (by decide)).1

/-- C5: the dataset written to `outdir/high_risk.csv` is the filter of the
flagged dataset keeping, in original order (a sublist), exactly the rows
whose Risk Score cell is a non-null number at or above high_threshold. -/
theorem high_risk_rows_spec (df : DF) (outdir : String) (high_threshold : ℚ) (fs : FS) :
    fsRead (save_outputs df outdir high_threshold fs).1 (outdir ++ "/high_risk.csv")
      = some (FileData.table (highRiskDF df high_threshold)) ∧
    List.Sublist (highRiskDF df high_threshold).rows df.rows ∧
    (∀ r, r ∈ (highRiskDF df high_threshold).rows ↔
      (r ∈ df.rows ∧ ∃ q : ℚ,
        getValC df.cols r "Risk Score" = Value.num q ∧ high_threshold ≤ q)) := by
  refine ⟨?_, List.filter_sublist _, ?_⟩
  · have hne : outdir ++ "/needs_review.csv" ≠ outdir ++ "/high_risk.csv" :=
      string_append_right_cancel _ _ _ (by decide)
    show fsRead (fsWrite (fsWrite fs _ _) _ _) _ = _
    rw [fsRead_write_ne _ _ _ _ hne, fsRead_write_eq]
  · intro r
    show r ∈ df.rows.filter (fun x => numGEb (getValC df.cols x "Risk Score") high_threshold)
      ↔ _
    rw [List.mem_filter]
    constructor
    · rintro ⟨h1, h2⟩
      refine ⟨h1, ?_⟩
      cases hv : getValC df.cols r "Risk Score" with
      | num q =>
        rw [hv] at h2
        refine ⟨q, rfl, ?_⟩
        simpa [numGEb] using h2
      | na => rw [hv] at h2; simp [numGEb] at h2
      | str s => rw [hv] at h2; simp [numGEb] at h2
      | date d => rw [hv] at h2; simp [numGEb] at h2
      | bool b => rw [hv] at h2; simp [numGEb] at h2
    · rintro ⟨h1, q, hq, hle⟩
      refine ⟨h1, ?_⟩
      rw [hq]
      simp [numGEb, hle]

/-- C6 counterexample: the highlighting pass flags a cell holding the string
true with surrounding whitespace, which the claim's strict case-insensitive
set test does not accept, and such a row does end up fully filled. -/
theorem truthy_strict_counterexample :
    truthyCell (Value.str " true") = true ∧
    specTruthyStrict (Value.str " true") = false ∧
    countRows fullyFilled
      (((lookupSheet (highlight_excel wbCtr "FFF2CC") "Vendor Register").getD []).drop 1)
      = 1 := by
  refine ⟨rfl, rfl, rfl⟩

/-- C6 (amended): a data row's flag cell counts as flagged exactly when it
is the literal boolean true, a whitespace-trimmed case-insensitive string in
the true/1/yes set, or a number equal to 1; the pass rewrites only the
Vendor Register sheet, the fully filled data rows afterwards are exactly the
flagged ones, and with zero flagged rows the workbook is unchanged. -/
theorem highlight_pass_spec (wb : Workbook) (hex : String) (hdr : List ExCell)
    (rows : List (List ExCell)) (fi L : Nat)
    (hws : lookupSheet wb "Vendor Register" = some (hdr :: rows))
    (hfi : valueIndexOf (Value.str "Needs Review") (hdr.map (fun c => c.1)) = some fi)
    (hL : 0 < L) (hhdr : hdr.length = L)
    (hrows : ∀ r ∈ rows, r.length = L)
    (hfills : ∀ r ∈ rows, ∀ c ∈ r, c.2 = (none : Option String)) :
    (∀ v, truthyCell v = specTruthy v) ∧
    highlight_excel wb hex
      = setSheet wb "Vendor Register" (hdr :: highlightRows rows fi L hex) ∧
    countRows fullyFilled (highlightRows rows fi L hex)
      = countRows (fun r => truthyCell ((r.getD fi (Value.na, none)).1)) rows ∧
    (countRows (fun r => truthyCell ((r.getD fi (Value.na, none)).1)) rows = 0 →
      highlight_excel wb hex = wb) := by
  have hmc : maxColOf (hdr :: rows) = L := by
    apply maxColOf_const (hdr :: rows) L (by simp)
    intro r hr
    rcases List.mem_cons.mp hr with h1 | h1
    · rw [h1]; exact hhdr
    · exact hrows r h1
  have hhe : highlight_excel wb hex
      = setSheet wb "Vendor Register" (hdr :: highlightRows rows fi L hex) := by
    simp only [highlight_excel, hws, List.getD_cons_zero, hfi, hmc]
  refine ⟨truthyCell_eq_specTruthy, hhe,
    highlightRows_count rows fi L hex hL hrows hfills, ?_⟩
  intro hzero
  have hflags : ∀ r ∈ rows, truthyCell ((r.getD fi (Value.na, none)).1) = false :=
    (countRows_eq_zero_iff _ rows).mp hzero
  rw [hhe, highlightRows_id_of_no_flag rows fi L hex hflags]
  exact setSheet_lookup_self wb "Vendor Register" (hdr :: rows) hws

theorem highlight_pass_spec_witness :
    countRows fullyFilled (highlightRows
      [[(Value.str "Acme", none), (Value.bool true, none)],
       [(Value.str "Beta", none), (Value.bool false, none)]] 1 2 "FFF2CC")
    = countRows (fun r => truthyCell ((r.getD 1 (Value.na, none)).1))
       [[(Value.str "Acme", none), (Value.bool true, none)],
        [(Value.str "Beta", none), (Value.bool false, none)]] :=
  (highlight_pass_spec wbSample "FFF2CC"
    [(Value.str "Vendor Name", none), (Value.str "Needs Review", none)]
    [[(Value.str "Acme", none), (Value.bool true, none)],
     [(Value.str "Beta", none), (Value.bool false, none)]] 1 2
    (by decide) (by decide) (by decide) (by decide) (by decide) (by decide)).2.2.1

/-- C7: after `ensure_columns`, every one of the five required logical
columns exists; a warning is recorded exactly for each required column
absent from the trimmed source header, and every cell of such a synthesized
column is null.  The function is total, so the step never fails. -/
theorem ensure_columns_spec (df : DF) (hR : Rect df) :
    (∀ c ∈ expectedCols, c ∈ (ensure_columns df).1.cols) ∧
    (∀ c, c ∈ (ensure_columns df).2 ↔ (c ∈ expectedCols ∧ c ∉ (stripCols df).cols)) ∧
    (∀ c ∈ expectedCols, c ∉ (stripCols df).cols →
      ∀ i, getValC (ensure_columns df).1.cols (rowAt (ensure_columns df).1 i) c
        = Value.na) := by
  have hRs : Rect (stripCols df) := by
    intro r hr
    show r.length = (df.cols.map strip).length
    rw [List.length_map]
    exact hR r hr
  exact ⟨fun c hc => addMissing_mem expectedCols (stripCols df) c hc,
    fun c => addMissing_warns expectedCols (stripCols df) c,
    fun c hc habs i => addMissing_null expectedCols (stripCols df) c hRs hc habs i⟩

theorem ensure_columns_spec_witness :
    "Risk Score" ∈ (ensure_columns wMissingDF).1.cols ∧
    getValC (ensure_columns wMissingDF).1.cols (rowAt (ensure_columns wMissingDF).1 0)
      "Risk Score" = Value.na :=
  ⟨(ensure_columns_spec wMissingDF (by decide)).1 "Risk Score" (by decide),
   (ensure_columns_spec wMissingDF (by decide)).2.2 "Risk Score" (by decide) (by decide) 0⟩

/-- C8: `load_input` parses the first candidate path that exists, choosing
the spreadsheet parser exactly for case-insensitive `.xls`/`.xlsx` suffixes
and the CSV parser otherwise, returning the dataset with the chosen path;
when no candidate exists it returns the fatal input-not-found error. -/
theorem load_input_spec (pathExists : String → Bool) (readXl readCsv : String → DF)
    (paths : List String) :
    load_input pathExists readXl readCsv paths =
      (match firstSuch pathExists paths with
       | none => Except.error "Input file not found"
       | some p => Except.ok (if isExcelPath p then readXl p else readCsv p, p)) := by
  induction paths with
  | nil => rfl
  | cons p t ih =>
    by_cases h : pathExists p = true
    · simp [load_input, firstSuch, h]
    · simp [load_input, firstSuch, h, ih]

/-- C9: `compute_flags` is idempotent on the flag columns: applying it to
its own output with the same parameters leaves every row's Needs Review and
Risk Category cells unchanged. -/
theorem compute_flags_idempotent (today days_threshold : Int) (high_threshold : ℚ)
    (df : DF) (hR : Rect df)
    (hAD : "Assessment Date" ∈ df.cols) (hRS : "Risk Score" ∈ df.cols)
    (i : Nat) (hi : i < df.rows.length) :
    getValC (compute_flags today days_threshold high_threshold
        (compute_flags today days_threshold high_threshold df)).cols
      (rowAt (compute_flags today days_threshold high_threshold
        (compute_flags today days_threshold high_threshold df)) i) "Needs Review"
      = getValC (compute_flags today days_threshold high_threshold df).cols
          (rowAt (compute_flags today days_threshold high_threshold df) i)
          "Needs Review" ∧
    getValC (compute_flags today days_threshold high_threshold
        (compute_flags today days_threshold high_threshold df)).cols
      (rowAt (compute_flags today days_threshold high_threshold
        (compute_flags today days_threshold high_threshold df)) i) "Risk Category"
      = getValC (compute_flags today days_threshold high_threshold df).cols
          (rowAt (compute_flags today days_threshold high_threshold df) i)
          "Risk Category" := by
  obtain ⟨h1R, h1L, h1AD, h1RS, hcells⟩ :=
    compute_flags_facts today days_threshold high_threshold df hR hAD hRS
  obtain ⟨hc1AD, hc1RS, hc1NR, hc1RC⟩ := hcells i hi
  have hi1 : i < (compute_flags today days_threshold high_threshold df).rows.length := by
    rw [h1L]; exact hi
  obtain ⟨h2R, h2L, h2AD, h2RS, hcells2⟩ :=
    compute_flags_facts today days_threshold high_threshold
      (compute_flags today days_threshold high_threshold df) h1R h1AD h1RS
  obtain ⟨hc2AD, hc2RS, hc2NR, hc2RC⟩ := hcells2 i hi1
  constructor
  · rw [hc2NR, hc1AD, coerceDate_valOfDate, hc1NR]
  · rw [hc2RC, hc1RS, coerceNum_valOfNum, hc1RC]

theorem compute_flags_idempotent_witness :
    getValC (compute_flags 0 365 80 (compute_flags 0 365 80 sampleDF)).cols
        (rowAt (compute_flags 0 365 80 (compute_flags 0 365 80 sampleDF)) 0)
        "Needs Review"
      = getValC (compute_flags 0 365 80 sampleDF).cols
          (rowAt (compute_flags 0 365 80 sampleDF) 0) "Needs Review" :=
  (compute_flags_idempotent 0 365 80 sampleDF
    (by decide) (by decide) (by decide) 0 (by decide)).1

/-- C10: because the high-threshold test precedes the fixed 50 test in
`bucket`, with high_threshold at most 50 no score is ever classified
Medium: every non-null score at or above the threshold is High and every
other non-null score is Low. -/
theorem bucket_low_threshold (high_threshold : ℚ) (hle : high_threshold ≤ 50) :
    (∀ s : Option ℚ, bucket s high_threshold ≠ "Medium") ∧
    (∀ q : ℚ, high_threshold ≤ q → bucket (some q) high_threshold = "High") ∧
    (∀ q : ℚ, q < high_threshold → bucket (some q) high_threshold = "Low") := by
  refine ⟨?_, ?_, ?_⟩
  · intro s
    cases s with
    | none => simp [bucket]
    | some q =>
      simp only [bucket]
      by_cases h : q ≥ high_threshold
      · rw [if_pos h]; decide
      · rw [if_neg h]
        have h50 : ¬ (q ≥ 50) := fun hq => h (le_trans hle hq)
        rw [if_neg h50]; decide
  · intro q hq
    simp only [bucket]
    rw [if_pos hq]
  · intro q hq
    simp only [bucket]
    rw [if_neg (not_le.mpr hq),
      if_neg (fun h50 => absurd hq (not_lt.mpr (le_trans hle h50)))]

theorem bucket_low_threshold_witness :
    bucket (some 60) 40 = "High" ∧ bucket (some 30) 40 = "Low" ∧
    bucket (some 55) 40 ≠ "Medium" := by
  have h := bucket_low_threshold 40 (by norm_num)
  exact ⟨h.2.1 60 (by norm_num), h.2.2 30 (by norm_num), h.1 (some 55)⟩

end ClaimTheorems
